import Mathlib

/-!
Verification of the UPSC-Replication-Engine repository.

This file shallowly embeds the core logic of the repository
(`engine.py`, `librarian.py`, `quiz_history_manager.py`) and proves or
refutes the specified properties about it.  External effects (the LLM
provider, the filesystem, the clock, the random generator) are modelled
as explicit parameters: an oracle function stands for each provider
call, file contents are passed as values, and generated ids, timestamps
and jitter values are arguments.
-/

set_option maxHeartbeats 1000000

namespace UPSC

/-! ## Quiz history store (src/quiz_history_manager.py)

A history file on disk is either absent, present but not valid JSON, or
a valid JSON list of quiz records.  `Q` abstracts the `quiz_data`
payload (an arbitrary JSON value in the Python code). -/

/-- A saved quiz attempt, mirroring the dictionary built in
`QuizHistory.save_quiz`. -/
structure QuizRecord (Q : Type) where
  id : String
  timestamp : String
  topic : String
  score : Int
  max_score : Int
  questions : Q
deriving DecidableEq

/-- The state of the backing history file. -/
inductive HistFile (Q : Type) where
  | absent : HistFile Q
  | invalid : HistFile Q
  | valid : List (QuizRecord Q) → HistFile Q
deriving DecidableEq

/-- Embeds `QuizHistory.load_history`: `json.load` succeeds only on a
valid file; `JSONDecodeError` and `FileNotFoundError` both yield `[]`. -/
def load_history {Q : Type} : HistFile Q → List (QuizRecord Q)
  | HistFile.valid records => records
  | HistFile.absent => []
  | HistFile.invalid => []

/-- Embeds `QuizHistory.save_quiz`.  The fresh uuid and the formatted
current time are passed in as `freshId` and `stamp`.  Returns the new
file contents and the returned id. -/
def save_quiz {Q : Type} (file : HistFile Q) (topic : String) (quiz_data : Q)
    (score max_score : Int) (freshId stamp : String) : HistFile Q × String :=
  let history := load_history file
  let entry : QuizRecord Q :=
    { id := freshId, timestamp := stamp, topic := topic,
      score := score, max_score := max_score, questions := quiz_data }
  (HistFile.valid (entry :: history), entry.id)

/-! ## PDF page-range extraction (src/engine.py, ExamEngine.extract_text_from_pdf)

A PDF is modelled as the list of texts of its pages.  Page numbers are
integers (1-indexed in the Python API); `end_page = none` models
Python `None`. -/

/-- The 0-based page indices `range(start_idx, end_idx)` that
`extract_text_from_pdf` reads: `start_idx = max(0, start_page - 1)` and
`end_idx = total_pages if end_page is None else min(total_pages, end_page)`. -/
def pageRange (total : Nat) (start_page : Int) (end_page : Option Int) : List Nat :=
  let start_idx : Int := max 0 (start_page - 1)
  let end_idx : Int :=
    match end_page with
    | none => (total : Int)
    | some e => min (total : Int) e
  List.range' start_idx.toNat (end_idx.toNat - start_idx.toNat)

/-- Embeds `ExamEngine.extract_text_from_pdf` on an already-opened PDF:
concatenates `pages[i].extract_text() + "\n"` over the computed range. -/
def extract_text_from_pdf (pages : List String) (start_page : Int)
    (end_page : Option Int) : String :=
  String.join ((pageRange pages.length start_page end_page).map
    (fun i => pages.getD i "" ++ "\n"))

/-! ## Library index data model (src/librarian.py) -/

/-- A chapter record as stored in `library_index.json`; `page_start` and
`page_end` are `Option` because `analyze_structure` output may omit
them (the code reads them with `.get`). -/
structure Chapter where
  index : Int
  title : String
  topics : List String
  page_start : Option Int
  page_end : Option Int
deriving DecidableEq

/-- An entry of `library_index.json` under the `"files"` key.  The
`subject` key may be absent in a hand-edited index (the code reads it
with `.get`), hence `Option`. -/
structure IndexEntry where
  hash : String
  subject : Option String
  chapters : List Chapter
  path : String
deriving DecidableEq

/-- Python dict lookup on an association list (first match wins; a dict
has unique keys, so this is exact). -/
def lookupKey {β : Type} (k : String) : List (String × β) → Option β
  | [] => none
  | p :: rest => if p.1 = k then some p.2 else lookupKey k rest

/-- Embeds `Librarian.get_chapter_content`.  `pdfOf` gives the pages of
the PDF stored under a filename; the index is the `"files"` mapping. -/
def get_chapter_content (index : List (String × IndexEntry))
    (pdfOf : String → List String) (filename : String) (chapter_index : Int) :
    Option String :=
  match lookupKey filename index with
  | none => none
  | some file_data =>
    match file_data.chapters.find? (fun c => c.index == chapter_index) with
    | none => none
    | some target_chapter =>
      let start := target_chapter.page_start.getD 1
      let e :=
        match target_chapter.page_end with
        | none => none
        | some v =>
          if v ≠ 0 ∧ v < start then some (start + 10) else some v
      some (extract_text_from_pdf (pdfOf filename) start e)

/-! ## Balanced mock-test generation (src/engine.py, ExamEngine.generate_mock_test)

`generate_questions` performs a network call, so it is modelled as an
oracle `respond` mapping a subject index and a requested question count
to the value it returns: either `{"questions": [...]}` or
`{"error": msg}`. -/

/-- The fixed subject list of `generate_mock_test`. -/
def subjects : List String :=
  ["Ancient & Medieval History",
   "Modern Indian History",
   "Indian Polity & Governance",
   "Indian Economy",
   "Geography (Physical & Indian)",
   "Environment & Ecology",
   "Science & Technology",
   "Current Events (Last 12 Months)"]

/-- Outcome of one `generate_questions` call, as inspected by
`generate_mock_test` (`"questions" in response` / `"error" in response`). -/
inductive GenResponse (Q : Type) where
  | questions : List Q → GenResponse Q
  | error : String → GenResponse Q
deriving DecidableEq

/-- Result of `generate_mock_test`: either the concatenated question
list or an error value. -/
inductive MockResult (Q : Type) where
  | questions : List Q → MockResult Q
  | error : String → MockResult Q
deriving DecidableEq

/-- Character-list prefix test, used to build the substring test. -/
def prefixMatches : List Char → List Char → Bool
  | [], _ => true
  | _ :: _, [] => false
  | a :: as, b :: bs => a == b && prefixMatches as bs

/-- Character-list substring test. -/
def containsChars (needle : List Char) : List Char → Bool
  | [] => needle.isEmpty
  | c :: rest => prefixMatches needle (c :: rest) || containsChars needle rest

/-- Python substring test `needle in haystack`. -/
def containsSub (needle haystack : String) : Bool :=
  containsChars needle.toList haystack.toList

/-- The per-subject question count of `generate_mock_test`:
`count = max(1, num_questions // 8) + (1 if i < num_questions % 8 else 0)`. -/
def mockCount (num_questions : Nat) (i : Nat) : Nat :=
  max 1 (num_questions / subjects.length) +
    (if i < num_questions % subjects.length then 1 else 0)

/-- The `"Failed to generate any questions."` error message assembled
from the collected per-subject error log. -/
def mockFailMsg (errors : List String) : String :=
  "Failed to generate any questions.\nDetails:\n" ++ String.intercalate "\n" errors

/-- The loop body of `generate_mock_test` over the remaining subject
indices, carrying `all_questions` and `errors`.  Returns the final
result together with the error log accumulated up to the return
point. -/
def mockGo {Q : Type} (respond : Nat → Nat → GenResponse Q) (num_questions : Nat) :
    List Nat → List Q → List String → MockResult Q × List String
  | [], all_questions, errors =>
    (if all_questions.isEmpty then MockResult.error (mockFailMsg errors)
     else MockResult.questions all_questions, errors)
  | i :: rest, all_questions, errors =>
    if mockCount num_questions i = 0 then
      mockGo respond num_questions rest all_questions errors
    else
      match respond i (mockCount num_questions i) with
      | GenResponse.questions qs =>
        mockGo respond num_questions rest (all_questions ++ qs) errors
      | GenResponse.error msg =>
        if containsSub "Rate limit" msg then
          (MockResult.error msg, errors ++ [subjects.getD i "" ++ ": " ++ msg])
        else
          mockGo respond num_questions rest all_questions
            (errors ++ [subjects.getD i "" ++ ": " ++ msg])

/-- Embeds `ExamEngine.generate_mock_test` (the fixed 5-second
inter-subject sleep is a pure time effect and carries no data). -/
def generate_mock_test {Q : Type} (respond : Nat → Nat → GenResponse Q)
    (num_questions : Nat) : MockResult Q × List String :=
  mockGo respond num_questions (List.range subjects.length) [] []

/-- True when a subject call returned the error value whose message
makes `generate_mock_test` abort (`"Rate limit" in response["error"]`). -/
def isRateLimitAbort {Q : Type} : GenResponse Q → Bool
  | GenResponse.questions _ => false
  | GenResponse.error msg => containsSub "Rate limit" msg

/-- The questions contributed by subject `j` when no abort happens. -/
def subcallQuestions {Q : Type} (respond : Nat → Nat → GenResponse Q)
    (num_questions : Nat) (j : Nat) : List Q :=
  match respond j (mockCount num_questions j) with
  | GenResponse.questions qs => qs
  | GenResponse.error _ => []

/-- The error-log line contributed by subject `j`, if any. -/
def subcallError {Q : Type} (respond : Nat → Nat → GenResponse Q)
    (num_questions : Nat) (j : Nat) : Option String :=
  match respond j (mockCount num_questions j) with
  | GenResponse.questions _ => none
  | GenResponse.error msg => some (subjects.getD j "" ++ ": " ++ msg)

/-! ## Theorems for claims C6, C10, C3 -/

/-- C6: for every quiz attempt, calling `save_quiz` and then
`load_history` returns a first element equal to the saved record in all
fields (id, timestamp, topic, score, max_score, questions), with all
previously stored records following in their prior order, and the
returned id is the fresh id of the saved record. -/
theorem save_then_load_roundtrip (Q : Type) (file : HistFile Q) (topic : String)
    (quiz_data : Q) (score max_score : Int) (freshId stamp : String) :
    load_history (save_quiz file topic quiz_data score max_score freshId stamp).1 =
      ({ id := freshId, timestamp := stamp, topic := topic, score := score,
         max_score := max_score, questions := quiz_data } : QuizRecord Q)
        :: load_history file ∧
    (save_quiz file topic quiz_data score max_score freshId stamp).2 = freshId :=
  ⟨rfl, rfl⟩

/-- C10: when the backing history file is missing or holds text that is
not valid JSON, `load_history` yields the empty list and `save_quiz`
still succeeds, rewriting the file so that it contains exactly the one
new record; the unparseable prior content is discarded. -/
theorem save_quiz_on_bad_file (Q : Type) (file : HistFile Q) (topic : String)
    (quiz_data : Q) (score max_score : Int) (freshId stamp : String)
    (h : file = HistFile.absent ∨ file = HistFile.invalid) :
    load_history file = [] ∧
    (save_quiz file topic quiz_data score max_score freshId stamp).1 =
      HistFile.valid
        [{ id := freshId, timestamp := stamp, topic := topic, score := score,
           max_score := max_score, questions := quiz_data }] := by
  rcases h with h | h <;> subst h <;> exact ⟨rfl, rfl⟩

/-- Witness for C10 at a concrete corrupt file. -/
theorem save_quiz_on_bad_file_witness :
    ((HistFile.invalid : HistFile Nat) = HistFile.absent ∨
      (HistFile.invalid : HistFile Nat) = HistFile.invalid) ∧
    (load_history (HistFile.invalid : HistFile Nat) = [] ∧
      (save_quiz (HistFile.invalid : HistFile Nat) "Polity" 7 3 5 "id-1"
          "2026-10-12 10:00").1 =
        HistFile.valid
          [{ id := "id-1", timestamp := "2026-10-12 10:00", topic := "Polity",
             score := 3, max_score := 5, questions := 7 }]) :=
  ⟨Or.inr rfl,
    save_quiz_on_bad_file Nat HistFile.invalid "Polity" 7 3 5 "id-1"
      "2026-10-12 10:00" (Or.inr rfl)⟩

/-- C3 (code bug evidence): for the chapter with `page_start = 5` and
stored `page_end = 0` in a 20-page PDF, the stored end precedes the
start, yet `get_chapter_content` does not apply the `start + 10`
default: the Python guard `if end and end < start` is false for
`end = 0`, so `end_page = 0` is passed through and the extracted page
range `range(4, min(20, 0))` is empty, producing the empty text.  Had
the default applied as the code comment and the spec state, pages
5..15 would have been extracted, giving eleven pages of text. -/
theorem chapter_end_zero_not_defaulted :
    get_chapter_content
      [("book.pdf",
        { hash := "h1", subject := some "Indian Polity",
          chapters :=
            [{ index := 1, title := "The Constitution", topics := [],
               page_start := some 5, page_end := some 0 }],
          path := "library/book.pdf" })]
      (fun _ => List.replicate 20 "P") "book.pdf" 1 = some "" ∧
    extract_text_from_pdf (List.replicate 20 "P") 5 (some 15) =
      String.join (List.replicate 11 "P\n") := by
  exact ⟨rfl, rfl⟩

/-! ## Lemmas and theorems for claims C1 and C4 -/

/-- Every per-subject count is at least one, because of the
`max(1, num_questions // 8)` in the source. -/
theorem mockCount_pos (n i : Nat) : 0 < mockCount n i :=
  Nat.lt_of_lt_of_le Nat.zero_lt_one
    (Nat.le_trans (Nat.le_max_left 1 _) (Nat.le_add_right _ _))

/-- When every remaining subject call succeeds, the loop concatenates
all returned question lists and keeps the error log unchanged. -/
theorem mockGo_all_success {Q : Type} (respond : Nat → Nat → GenResponse Q)
    (n : Nat) (f : Nat → List Q) :
    ∀ (l : List Nat) (acc : List Q) (errs : List String),
      (∀ i ∈ l, respond i (mockCount n i) = GenResponse.questions (f i)) →
      mockGo respond n l acc errs =
        (if (acc ++ (l.map f).flatten).isEmpty then
            MockResult.error (mockFailMsg errs)
          else MockResult.questions (acc ++ (l.map f).flatten), errs) := by
  intro l
  induction l with
  | nil => intro acc errs _; rw [mockGo, List.map_nil, List.flatten_nil, List.append_nil]
  | cons i rest ih =>
    intro acc errs h
    have hi := h i (List.mem_cons_self i rest)
    have hpos : ¬ mockCount n i = 0 := (mockCount_pos n i).ne'
    rw [mockGo, if_neg hpos, hi]
    dsimp only
    rw [ih (acc ++ f i) errs (fun j hj => h j (List.mem_cons_of_mem i hj))]
    rw [List.map_cons, List.flatten_cons, List.append_assoc]

/-- For `n ≥ 8` the eight per-subject counts add up to exactly `n`. -/
theorem mockCount_sum (n : Nat) (hn : 8 ≤ n) :
    ((List.range 8).map (mockCount n)).sum = n := by
  have hq : max 1 (n / 8) = n / 8 := Nat.max_eq_right (by omega)
  have hl : List.range 8 = [0, 1, 2, 3, 4, 5, 6, 7] := rfl
  have hsub : subjects.length = 8 := rfl
  have h8 : n % 8 = 0 ∨ n % 8 = 1 ∨ n % 8 = 2 ∨ n % 8 = 3 ∨ n % 8 = 4 ∨
      n % 8 = 5 ∨ n % 8 = 6 ∨ n % 8 = 7 := by omega
  rw [hl]
  simp only [List.map, List.sum_cons, List.sum_nil, mockCount, hsub, hq]
  rcases h8 with h | h | h | h | h | h | h | h <;> rw [h] <;> simp <;> omega

/-- C1 counterexample: for `totalCount = 3` (which is `≥ 1`), with every
subject call succeeding and returning exactly the requested number of
questions, `generate_mock_test` yields 11 questions, not 3: the code
computes `max(1, 3 // 8) = 1` base questions per subject, so each of the
first three subjects is asked for 2 questions and the remaining five for
1 each, instead of the claimed `ceil(3/8) = 1` for the first three and
`floor(3/8) = 0` for the rest. -/
theorem generate_mock_test_small_total_counterexample :
    (generate_mock_test
        (fun _ count => GenResponse.questions (List.replicate count ())) 3).1 =
      MockResult.questions (List.replicate 11 ()) ∧ (11 : Nat) ≠ 3 :=
  ⟨rfl, by decide⟩

/-- C1 (amended to `totalCount ≥ 8`): for every `totalCount ≥ 8`,
`generate_mock_test` asks each of the first `totalCount mod 8` subjects
for `ceil(totalCount/8)` questions and each remaining subject for
`floor(totalCount/8)` questions, and when every subject call succeeds
with exactly the requested count the concatenated result has exactly
`totalCount` questions.  (For `1 ≤ totalCount < 8` the
`max(1, totalCount // 8)` floor of the source raises every per-subject
count to at least 1, so the result has `8 + (totalCount mod 8)`
questions instead.) -/
theorem generate_mock_test_balanced (Q : Type)
    (respond : Nat → Nat → GenResponse Q) (n : Nat) (f : Nat → List Q)
    (hn : 8 ≤ n)
    (hresp : ∀ i, i < 8 → respond i (mockCount n i) = GenResponse.questions (f i))
    (hlen : ∀ i, i < 8 → (f i).length = mockCount n i) :
    (∀ i, i < n % 8 → mockCount n i = (n + 7) / 8) ∧
    (∀ i, n % 8 ≤ i → i < 8 → mockCount n i = n / 8) ∧
    (generate_mock_test respond n).1 =
      MockResult.questions (((List.range 8).map f).flatten) ∧
    (((List.range 8).map f).flatten).length = n := by
  have hq : max 1 (n / 8) = n / 8 := Nat.max_eq_right (by omega)
  have hsub : subjects.length = 8 := rfl
  have hjoin : (((List.range 8).map f).flatten).length = n := by
    rw [List.length_flatten, List.map_map]
    have hmc : (List.range 8).map (List.length ∘ f) =
        (List.range 8).map (mockCount n) := by
      apply List.map_congr_left
      intro i hi
      exact hlen i (List.mem_range.mp hi)
    rw [hmc, mockCount_sum n hn]
  refine ⟨?_, ?_, ?_, hjoin⟩
  · intro i hi
    rw [mockCount, hsub, hq, if_pos hi]
    omega
  · intro i h1 _
    rw [mockCount, hsub, hq, if_neg (Nat.not_lt.mpr h1)]
    rfl
  · rw [show generate_mock_test respond n =
        mockGo respond n (List.range 8) [] [] from rfl,
      mockGo_all_success respond n f (List.range 8) [] []
        (fun i hi => hresp i (List.mem_range.mp hi))]
    have hne : ¬ (([] : List Q) ++ ((List.range 8).map f).flatten).isEmpty = true := by
      rw [List.nil_append]
      intro h0
      rw [List.isEmpty_iff] at h0
      rw [h0] at hjoin
      simp at hjoin
      omega
    rw [if_neg hne]
    simp

/-- Witness for C1 at `totalCount = 20` with every subject call
returning exactly the requested number of questions: the result is the
concatenation of the per-subject lists and has exactly 20 questions. -/
theorem generate_mock_test_balanced_witness :
    (generate_mock_test
        (fun _ count => GenResponse.questions (List.replicate count ())) 20).1 =
      MockResult.questions
        (((List.range 8).map (fun i => List.replicate (mockCount 20 i) ())).flatten) ∧
    (((List.range 8).map (fun i => List.replicate (mockCount 20 i) ())).flatten).length
      = 20 := by
  have h := generate_mock_test_balanced Unit
    (fun _ count => GenResponse.questions (List.replicate count ())) 20
    (fun i => List.replicate (mockCount 20 i) ()) (by norm_num)
    (fun i _ => rfl) (fun i _ => by simp)
  exact ⟨h.2.2.1, h.2.2.2⟩

/-- If the subject calls before index `k` do not return a rate-limit
error value, and the call for subject `k` does, the loop returns that
error value at subject `k`. -/
theorem mockGo_abort {Q : Type} (respond : Nat → Nat → GenResponse Q)
    (n k : Nat) (msg : String) :
    ∀ (m i : Nat) (acc : List Q) (errs : List String),
      i ≤ k → k < i + m →
      (∀ j, i ≤ j → j < k → isRateLimitAbort (respond j (mockCount n j)) = false) →
      respond k (mockCount n k) = GenResponse.error msg →
      containsSub "Rate limit" msg = true →
      (mockGo respond n (List.range' i m) acc errs).1 = MockResult.error msg := by
  intro m
  induction m with
  | zero => intro i acc errs h1 h2 _ _ _; omega
  | succ m ih =>
    intro i acc errs h1 h2 hpre hk hrl
    have hr : List.range' i (m + 1) = i :: List.range' (i + 1) m := rfl
    rw [hr, mockGo, if_neg (mockCount_pos n i).ne']
    rcases Nat.eq_or_lt_of_le h1 with heq | hlt
    · subst heq
      rw [hk]
      dsimp only
      rw [if_pos hrl]
    · have hab := hpre i le_rfl hlt
      cases hri : respond i (mockCount n i) with
      | questions qs =>
        dsimp only
        exact ih (i + 1) (acc ++ qs) errs (by omega) (by omega)
          (fun j hj1 hj2 => hpre j (by omega) hj2) hk hrl
      | error m1 =>
        rw [hri] at hab
        have hno : containsSub "Rate limit" m1 = false := by
          simpa [isRateLimitAbort] using hab
        dsimp only
        rw [if_neg (by simp [hno])]
        exact ih (i + 1) acc (errs ++ [subjects.getD i "" ++ ": " ++ m1])
          (by omega) (by omega) (fun j hj1 hj2 => hpre j (by omega) hj2) hk hrl

/-- When no subject call returns a rate-limit error value, the loop
visits every subject, concatenates all returned question lists and
collects one log line per failed subject. -/
theorem mockGo_no_abort {Q : Type} (respond : Nat → Nat → GenResponse Q) (n : Nat) :
    ∀ (m i : Nat) (acc : List Q) (errs : List String),
      (∀ j, i ≤ j → j < i + m → isRateLimitAbort (respond j (mockCount n j)) = false) →
      mockGo respond n (List.range' i m) acc errs =
        (if (acc ++ ((List.range' i m).map (subcallQuestions respond n)).flatten).isEmpty
            then MockResult.error (mockFailMsg
              (errs ++ (List.range' i m).filterMap (subcallError respond n)))
            else MockResult.questions
              (acc ++ ((List.range' i m).map (subcallQuestions respond n)).flatten),
         errs ++ (List.range' i m).filterMap (subcallError respond n)) := by
  intro m
  induction m with
  | zero =>
    intro i acc errs _
    have h0 : List.range' i 0 = ([] : List Nat) := rfl
    rw [h0, mockGo, List.map_nil, List.flatten_nil, List.append_nil,
      List.filterMap_nil, List.append_nil]
  | succ m ih =>
    intro i acc errs h
    have hr : List.range' i (m + 1) = i :: List.range' (i + 1) m := rfl
    rw [hr, mockGo, if_neg (mockCount_pos n i).ne']
    cases hri : respond i (mockCount n i) with
    | questions qs =>
      have hq1 : subcallQuestions respond n i = qs := by
        simp only [subcallQuestions]; rw [hri]
      have hq2 : subcallError respond n i = none := by
        simp only [subcallError]; rw [hri]
      dsimp only
      rw [ih (i + 1) (acc ++ qs) errs (fun j hj1 hj2 => h j (by omega) (by omega))]
      rw [List.map_cons, List.flatten_cons, hq1, List.filterMap_cons_none hq2,
        List.append_assoc]
    | error msg =>
      have hno : containsSub "Rate limit" msg = false := by
        have hab := h i le_rfl (by omega)
        rw [hri] at hab
        simpa [isRateLimitAbort] using hab
      have he1 : subcallQuestions respond n i = [] := by
        simp only [subcallQuestions]; rw [hri]
      have he2 : subcallError respond n i =
          some (subjects.getD i "" ++ ": " ++ msg) := by
        simp only [subcallError]; rw [hri]
      dsimp only
      rw [if_neg (by simp [hno])]
      rw [ih (i + 1) acc (errs ++ [subjects.getD i "" ++ ": " ++ msg])
        (fun j hj1 hj2 => h j (by omega) (by omega))]
      rw [List.map_cons, List.flatten_cons, he1, List.nil_append,
        List.filterMap_cons_some he2]
      simp [List.append_assoc]

/-- C4: in `generate_mock_test`, if the call for some subject `k`
returns the rate-limit "service busy" error value (its message contains
"Rate limit") and no earlier subject did, the whole operation returns
that error value immediately; and when no subject call returns a
rate-limit error value, every subject is processed, the non-rate-limit
error messages are collected into the error log, and the result is the
concatenation of the questions of all successful subjects (or the combined
failure message when no questions at all were produced). -/
theorem generate_mock_test_abort_or_collect (Q : Type) :
    (∀ (respond : Nat → Nat → GenResponse Q) (n k : Nat) (msg : String),
      k < 8 →
      (∀ j, j < k → isRateLimitAbort (respond j (mockCount n j)) = false) →
      respond k (mockCount n k) = GenResponse.error msg →
      containsSub "Rate limit" msg = true →
      (generate_mock_test respond n).1 = MockResult.error msg) ∧
    (∀ (respond : Nat → Nat → GenResponse Q) (n : Nat),
      (∀ j, j < 8 → isRateLimitAbort (respond j (mockCount n j)) = false) →
      generate_mock_test respond n =
        (if (((List.range 8).map (subcallQuestions respond n)).flatten).isEmpty
            then MockResult.error (mockFailMsg
              ((List.range 8).filterMap (subcallError respond n)))
            else MockResult.questions
              (((List.range 8).map (subcallQuestions respond n)).flatten),
         (List.range 8).filterMap (subcallError respond n))) := by
  have hgen : ∀ (respond : Nat → Nat → GenResponse Q) (n : Nat),
      generate_mock_test respond n = mockGo respond n (List.range' 0 8) [] [] := by
    intro respond n
    rw [generate_mock_test, show subjects.length = 8 from rfl, List.range_eq_range']
  constructor
  · intro respond n k msg hk hpre hkresp hrl
    rw [hgen]
    exact mockGo_abort respond n k msg 8 0 [] [] (by omega) (by omega)
      (fun j _ hj2 => hpre j hj2) hkresp hrl
  · intro respond n h
    rw [hgen, mockGo_no_abort respond n 8 0 [] []
      (fun j _ hj2 => h j (by omega)), List.range_eq_range']
    simp

/-- Witness for C4: with subject 1 failing non-recoverably and subject 2
returning the rate-limit error value, the whole operation returns the
rate-limit error value; and with only subject 0 failing non-recoverably,
all eight subjects are processed and their outcomes collected. -/
theorem generate_mock_test_abort_or_collect_witness :
    (generate_mock_test
        (fun j _ =>
          if j = 2 then GenResponse.error "⚠️ **Error: Rate limit exceeded (429).**"
          else if j = 1 then GenResponse.error "boom"
          else GenResponse.questions ([()] : List Unit)) 16).1 =
      MockResult.error "⚠️ **Error: Rate limit exceeded (429).**" ∧
    generate_mock_test
        (fun j _ =>
          if j = 0 then GenResponse.error "boom"
          else GenResponse.questions ([()] : List Unit)) 16 =
      (if (((List.range 8).map (subcallQuestions
              (fun j _ =>
                if j = 0 then GenResponse.error "boom"
                else GenResponse.questions ([()] : List Unit)) 16)).flatten).isEmpty
          then MockResult.error (mockFailMsg
            ((List.range 8).filterMap (subcallError
              (fun j _ =>
                if j = 0 then GenResponse.error "boom"
                else GenResponse.questions ([()] : List Unit)) 16)))
          else MockResult.questions
            (((List.range 8).map (subcallQuestions
              (fun j _ =>
                if j = 0 then GenResponse.error "boom"
                else GenResponse.questions ([()] : List Unit)) 16)).flatten),
       (List.range 8).filterMap (subcallError
          (fun j _ =>
            if j = 0 then GenResponse.error "boom"
            else GenResponse.questions ([()] : List Unit)) 16)) := by
  constructor
  · exact (generate_mock_test_abort_or_collect Unit).1 _ 16 2
      "⚠️ **Error: Rate limit exceeded (429).**" (by decide) (by decide) rfl (by decide)
  · exact (generate_mock_test_abort_or_collect Unit).2 _ 16 (by decide)

/-! ## Retry wrapper (src/engine.py, ExamEngine._call_with_retry)

One wrapped call is modelled by an oracle `outcomes` giving, for each
attempt number, either a successful return value or a raised exception
message.  The `random.uniform(0, 1)` jitter values are a parameter
`jitter`, and instead of sleeping, the embedding records the slept
durations (in seconds, as rationals) in a list. -/

/-- Outcome of one invocation of the wrapped function. -/
inductive CallOutcome (α : Type) where
  | success : α → CallOutcome α
  | raise : String → CallOutcome α

/-- Python `str(e).lower()`. -/
def lowerChars (s : String) : List Char := s.toList.map Char.toLower

/-- The rate-limit test of `_call_with_retry`:
`"429" in error_str or "resource exhausted" in error_str` on the
lowercased message. -/
def isRateLimitSignal (msg : String) : Bool :=
  containsChars "429".toList (lowerChars msg) ||
    containsChars "resource exhausted".toList (lowerChars msg)

/-- True when the attempt raised and the message is a rate-limit signal. -/
def raisesRateLimit {α : Type} : CallOutcome α → Bool
  | CallOutcome.success _ => false
  | CallOutcome.raise msg => isRateLimitSignal msg

/-- The message of the exception raised when all retries are exhausted. -/
def rateLimitExhaustedMsg : String :=
  "Rate limit exceeded. The model is too busy. Please wait 2 minutes."

/-- The sleep before the retry following attempt number `attempt`:
`min(base_delay * 2**attempt + random.uniform(0, 1), 60)` with
`base_delay = 5`. -/
def retrySleep (jitter : Nat → ℚ) (attempt : Nat) : ℚ :=
  min ((5 : ℚ) * 2 ^ attempt + jitter attempt) 60

/-- The retry loop of `_call_with_retry`, from a given attempt number,
with `fuel` remaining loop iterations (the Python loop runs
`max_retries + 1` iterations; its final iteration always returns, so
the fuel-exhausted branch is unreachable from `call_with_retry`).
Returns the result together with the list of slept durations. -/
def retryGo {α : Type} (outcomes : Nat → CallOutcome α) (jitter : Nat → ℚ)
    (max_retries : Nat) : Nat → Nat → Except String α × List ℚ
  | _, 0 => (Except.error "", [])
  | attempt, fuel + 1 =>
    match outcomes attempt with
    | CallOutcome.success v => (Except.ok v, [])
    | CallOutcome.raise msg =>
      if isRateLimitSignal msg = true then
        if attempt < max_retries then
          ((retryGo outcomes jitter max_retries (attempt + 1) fuel).1,
            retrySleep jitter attempt ::
              (retryGo outcomes jitter max_retries (attempt + 1) fuel).2)
        else (Except.error rateLimitExhaustedMsg, [])
      else (Except.error msg, [])

/-- Embeds `ExamEngine._call_with_retry`: `max_retries = 5`, starting at
attempt 0 with the loop iteration count of max_retries + 1 as fuel. -/
def call_with_retry {α : Type} (outcomes : Nat → CallOutcome α)
    (jitter : Nat → ℚ) : Except String α × List ℚ :=
  retryGo outcomes jitter 5 0 6

/-- One unfolding step of the retry loop. -/
theorem retryGo_succ {α : Type} (outcomes : Nat → CallOutcome α)
    (jitter : Nat → ℚ) (attempt fuel : Nat) :
    retryGo outcomes jitter 5 attempt (fuel + 1) =
      (match outcomes attempt with
       | CallOutcome.success v => (Except.ok v, ([] : List ℚ))
       | CallOutcome.raise msg =>
         if isRateLimitSignal msg = true then
           if attempt < 5 then
             ((retryGo outcomes jitter 5 (attempt + 1) fuel).1,
               retrySleep jitter attempt ::
                 (retryGo outcomes jitter 5 (attempt + 1) fuel).2)
           else (Except.error rateLimitExhaustedMsg, [])
         else (Except.error msg, [])) := rfl

/-- The loop starting at `attempt` records at most `5 - attempt` sleeps:
rate-limited attempts are retried at most five times in total. -/
theorem retryGo_delays_length {α : Type} (outcomes : Nat → CallOutcome α)
    (jitter : Nat → ℚ) :
    ∀ (fuel attempt : Nat),
      ((retryGo outcomes jitter 5 attempt fuel).2).length ≤ 5 - attempt := by
  intro fuel
  induction fuel with
  | zero => intro attempt; simp [retryGo]
  | succ fuel ih =>
    intro attempt
    rw [retryGo_succ]
    cases outcomes attempt with
    | success v => simp
    | raise msg =>
      dsimp only
      by_cases hrl : isRateLimitSignal msg = true
      · rw [if_pos hrl]
        by_cases hlt : attempt < 5
        · rw [if_pos hlt]
          have h1 := ih (attempt + 1)
          simp only [List.length_cons]
          omega
        · rw [if_neg hlt]; simp
      · rw [if_neg hrl]; simp

/-- The sleep recorded at position `i` of the sleep list of the loop
started at `attempt` is the backoff sleep for attempt `attempt + i`. -/
theorem retryGo_delays_get {α : Type} (outcomes : Nat → CallOutcome α)
    (jitter : Nat → ℚ) :
    ∀ (fuel attempt i : Nat),
      i < ((retryGo outcomes jitter 5 attempt fuel).2).length →
      ((retryGo outcomes jitter 5 attempt fuel).2).get? i =
        some (retrySleep jitter (attempt + i)) := by
  intro fuel
  induction fuel with
  | zero => intro attempt i h; simp [retryGo] at h
  | succ fuel ih =>
    intro attempt i
    rw [retryGo_succ]
    cases outcomes attempt with
    | success v => intro h; simp at h
    | raise msg =>
      dsimp only
      by_cases hrl : isRateLimitSignal msg = true
      · rw [if_pos hrl]
        by_cases hlt : attempt < 5
        · rw [if_pos hlt]
          intro h
          cases i with
          | zero => rw [Nat.add_zero]; rfl
          | succ i1 =>
            have hlen : i1 < ((retryGo outcomes jitter 5 (attempt + 1) fuel).2).length := by
              simp only [List.length_cons] at h
              omega
            show ((retryGo outcomes jitter 5 (attempt + 1) fuel).2).get? i1 = _
            rw [ih (attempt + 1) i1 hlen,
              show attempt + 1 + i1 = attempt + (i1 + 1) from by omega]
        · rw [if_neg hlt]; intro h; simp at h
      · rw [if_neg hrl]; intro h; simp at h

/-- If attempts `attempt, ..., attempt + k - 1` raise rate-limit errors
and attempt `attempt + k` raises a non-rate-limit error, the loop stops
at that error with exactly the `k` backoff sleeps before it. -/
theorem retryGo_other_error {α : Type} (outcomes : Nat → CallOutcome α)
    (jitter : Nat → ℚ) (msg : String) :
    ∀ (k attempt fuel : Nat),
      (∀ a, attempt ≤ a → a < attempt + k → raisesRateLimit (outcomes a) = true) →
      outcomes (attempt + k) = CallOutcome.raise msg →
      isRateLimitSignal msg = false →
      attempt + k ≤ 5 → k < fuel →
      retryGo outcomes jitter 5 attempt fuel =
        (Except.error msg, (List.range' attempt k).map (retrySleep jitter)) := by
  intro k
  induction k with
  | zero =>
    intro attempt fuel hpre hk hs h5 hf
    obtain ⟨f, rfl⟩ : ∃ f, fuel = f + 1 := ⟨fuel - 1, by omega⟩
    rw [retryGo_succ, Nat.add_zero] at *
    rw [hk]
    dsimp only
    rw [if_neg (by simp [hs])]
    rfl
  | succ k ih =>
    intro attempt fuel hpre hk hs h5 hf
    obtain ⟨f, rfl⟩ : ∃ f, fuel = f + 1 := ⟨fuel - 1, by omega⟩
    rw [retryGo_succ]
    have h0 := hpre attempt le_rfl (by omega)
    cases ho : outcomes attempt with
    | success v => rw [ho] at h0; simp [raisesRateLimit] at h0
    | raise m1 =>
      rw [ho] at h0
      have hsig : isRateLimitSignal m1 = true := by
        simpa [raisesRateLimit] using h0
      dsimp only
      rw [if_pos hsig, if_pos (show attempt < 5 by omega)]
      rw [ih (attempt + 1) f (fun a ha1 ha2 => hpre a (by omega) (by omega))
        (by rw [show attempt + 1 + k = attempt + (k + 1) from by omega]; exact hk)
        hs (by omega) (by omega)]
      have hr : List.range' attempt (k + 1) = attempt :: List.range' (attempt + 1) k := rfl
      rw [hr, List.map_cons]

/-- If attempts `attempt, ..., attempt + k - 1` raise rate-limit errors
and attempt `attempt + k` succeeds, the loop returns the success with
exactly the `k` backoff sleeps before it. -/
theorem retryGo_eventual_success {α : Type} (outcomes : Nat → CallOutcome α)
    (jitter : Nat → ℚ) (v : α) :
    ∀ (k attempt fuel : Nat),
      (∀ a, attempt ≤ a → a < attempt + k → raisesRateLimit (outcomes a) = true) →
      outcomes (attempt + k) = CallOutcome.success v →
      attempt + k ≤ 5 → k < fuel →
      retryGo outcomes jitter 5 attempt fuel =
        (Except.ok v, (List.range' attempt k).map (retrySleep jitter)) := by
  intro k
  induction k with
  | zero =>
    intro attempt fuel hpre hk h5 hf
    obtain ⟨f, rfl⟩ : ∃ f, fuel = f + 1 := ⟨fuel - 1, by omega⟩
    rw [retryGo_succ, Nat.add_zero] at *
    rw [hk]
    rfl
  | succ k ih =>
    intro attempt fuel hpre hk h5 hf
    obtain ⟨f, rfl⟩ : ∃ f, fuel = f + 1 := ⟨fuel - 1, by omega⟩
    rw [retryGo_succ]
    have h0 := hpre attempt le_rfl (by omega)
    cases ho : outcomes attempt with
    | success w => rw [ho] at h0; simp [raisesRateLimit] at h0
    | raise m1 =>
      rw [ho] at h0
      have hsig : isRateLimitSignal m1 = true := by
        simpa [raisesRateLimit] using h0
      dsimp only
      rw [if_pos hsig, if_pos (show attempt < 5 by omega)]
      rw [ih (attempt + 1) f (fun a ha1 ha2 => hpre a (by omega) (by omega))
        (by rw [show attempt + 1 + k = attempt + (k + 1) from by omega]; exact hk)
        (by omega) (by omega)]
      have hr : List.range' attempt (k + 1) = attempt :: List.range' (attempt + 1) k := rfl
      rw [hr, List.map_cons]

/-- C2: in `_call_with_retry` (i) a call failing with rate-limit signals
is retried at most 5 times (at most 5 sleeps are recorded); (ii) with
jitter values in `[0, 1)`, the sleep before retry attempt `a` is
`min(60, 5 * 2^a + jitter a)` seconds; (iii) an error that is not a
rate-limit signal propagates immediately, with no further retry and no
delay for it; (iv) three consecutive rate-limit errors followed by a
success produce exactly 3 delays, each at most 60 seconds, and the
successful result is returned. -/
theorem call_with_retry_spec (α : Type) :
    (∀ (outcomes : Nat → CallOutcome α) (jitter : Nat → ℚ),
      ((call_with_retry outcomes jitter).2).length ≤ 5) ∧
    (∀ (outcomes : Nat → CallOutcome α) (jitter : Nat → ℚ),
      (∀ a, 0 ≤ jitter a ∧ jitter a < 1) →
      ∀ i, i < ((call_with_retry outcomes jitter).2).length →
        ((call_with_retry outcomes jitter).2).get? i =
          some (min 60 ((5 : ℚ) * 2 ^ i + jitter i))) ∧
    (∀ (outcomes : Nat → CallOutcome α) (jitter : Nat → ℚ) (k : Nat) (msg : String),
      k ≤ 5 →
      (∀ a, a < k → raisesRateLimit (outcomes a) = true) →
      outcomes k = CallOutcome.raise msg →
      isRateLimitSignal msg = false →
      call_with_retry outcomes jitter =
        (Except.error msg, (List.range' 0 k).map (retrySleep jitter))) ∧
    (∀ (outcomes : Nat → CallOutcome α) (jitter : Nat → ℚ) (v : α),
      (∀ a, a < 3 → raisesRateLimit (outcomes a) = true) →
      outcomes 3 = CallOutcome.success v →
      (call_with_retry outcomes jitter).1 = Except.ok v ∧
      ((call_with_retry outcomes jitter).2).length = 3 ∧
      ∀ d ∈ (call_with_retry outcomes jitter).2, d ≤ 60) := by
  refine ⟨?_, ?_, ?_, ?_⟩
  · intro outcomes jitter
    have h := retryGo_delays_length outcomes jitter 6 0
    simpa [call_with_retry] using h
  · intro outcomes jitter _ i hi
    have h := retryGo_delays_get outcomes jitter 6 0 i hi
    rw [call_with_retry] at *
    rw [h, retrySleep, Nat.zero_add, min_comm]
  · intro outcomes jitter k msg hk hpre hraise hsig
    exact retryGo_other_error outcomes jitter msg k 0 6
      (fun a _ ha2 => hpre a (by omega)) (by simpa using hraise) hsig
      (by omega) (by omega)
  · intro outcomes jitter v hpre hsucc
    have h := retryGo_eventual_success outcomes jitter v 3 0 6
      (fun a _ ha2 => hpre a (by omega)) (by simpa using hsucc)
      (by omega) (by omega)
    rw [call_with_retry, h]
    refine ⟨rfl, rfl, ?_⟩
    intro d hd
    simp only [List.mem_map] at hd
    obtain ⟨a, _, rfl⟩ := hd
    exact min_le_right _ _

/-- Witness for C2 at concrete oracles: a run with one rate-limit error
then success (whose single sleep is `min(60, 5 + 1/2)`), a run failing
immediately with a non-rate-limit error (no sleeps), and a run with
three rate-limit errors then success. -/
theorem call_with_retry_spec_witness :
    ((call_with_retry (fun _ => CallOutcome.success (0 : Nat))
        (fun _ => (1 : ℚ) / 2)).2).length ≤ 5 ∧
    ((call_with_retry
        (fun a => if a = 0 then CallOutcome.raise "HTTP 429" else
          CallOutcome.success (7 : Nat)) (fun _ => (1 : ℚ) / 2)).2).get? 0 =
      some (min 60 ((5 : ℚ) * 2 ^ 0 + (1 : ℚ) / 2)) ∧
    call_with_retry (fun _ => CallOutcome.raise ("boom" : String) :
        Nat → CallOutcome Nat) (fun _ => (1 : ℚ) / 2) =
      (Except.error "boom", []) ∧
    ((call_with_retry
        (fun a => if a < 3 then CallOutcome.raise "resource exhausted"
          else CallOutcome.success (42 : Nat)) (fun _ => (1 : ℚ) / 2)).1 =
      Except.ok 42 ∧
    ((call_with_retry
        (fun a => if a < 3 then CallOutcome.raise "resource exhausted"
          else CallOutcome.success (42 : Nat)) (fun _ => (1 : ℚ) / 2)).2).length = 3 ∧
    ∀ d ∈ (call_with_retry
        (fun a => if a < 3 then CallOutcome.raise "resource exhausted"
          else CallOutcome.success (42 : Nat)) (fun _ => (1 : ℚ) / 2)).2, d ≤ 60) := by
  refine ⟨(call_with_retry_spec Nat).1 _ _, ?_, ?_, ?_⟩
  · exact (call_with_retry_spec Nat).2.1 _ _
      (fun a => ⟨by norm_num, by norm_num⟩) 0 (by decide)
  · have h := (call_with_retry_spec Nat).2.2.1
      (fun _ => CallOutcome.raise ("boom" : String)) (fun _ => (1 : ℚ) / 2)
      0 "boom" (by decide) (by intro a ha; omega) rfl (by decide)
    simpa using h
  · exact (call_with_retry_spec Nat).2.2.2 _ _ 42 (by decide) rfl

/-! ## Library scanning (src/librarian.py, Librarian.scan_library)

The filesystem is modelled by the directory-exists flag, the directory
listing and a hash oracle (the md5 of the bytes of each file); the provider
call `analyze_structure` is an oracle from the extracted
table-of-contents text and the filename to its parsed result. -/

/-- Python `f.lower().endswith(".pdf")`. -/
def isPdf (filename : String) : Bool :=
  prefixMatches ".pdf".toList.reverse (lowerChars filename).reverse

/-- Result of `ExamEngine.analyze_structure` as consumed by
`scan_library`: a parsed JSON object whose `subject` and `chapters`
keys may be absent (the code reads them with `.get`), or an
error-carrying object. -/
inductive AnalyzeResult where
  | ok : Option String → Option (List Chapter) → AnalyzeResult
  | err : String → AnalyzeResult

/-- Python dict assignment `self.index["files"][k] = v`: replaces the
value in place when the key is present, appends otherwise. -/
def setEntry (index : List (String × IndexEntry)) (k : String) (v : IndexEntry) :
    List (String × IndexEntry) :=
  if (index.map Prod.fst).contains k then
    index.map (fun p => if p.1 = k then (p.1, v) else p)
  else index ++ [(k, v)]

/-- Log line announcing that a file is being indexed. -/
def indexingLog (f : String) : String := "🔍 Indexing new file: " ++ f ++ "..."

/-- Log line for a failed structure inference. -/
def errorIndexLog (f msg : String) : String :=
  "❌ Error indexing " ++ f ++ ": " ++ msg

/-- Log line for a successful indexing. -/
def successIndexLog (f : String) (n : Nat) : String :=
  "✅ Successfully indexed " ++ f ++ " (" ++ toString n ++ " chapters found)."

/-- Log line for the removal of an index entry whose file disappeared. -/
def removedLog (f : String) : String :=
  "🗑️ Removed missing file from index: " ++ f

/-- The single log line of the branch creating the library directory. -/
def createdLog : String := "Created library directory."

/-- The needs-indexing test of `scan_library`:
`filename not in self.index["files"] or stored hash != file_hash`. -/
def needsIndexing (hashOf : String → String)
    (index : List (String × IndexEntry)) (filename : String) : Bool :=
  match lookupKey filename index with
  | none => true
  | some entry => entry.hash != hashOf filename

/-- The per-file loop of `scan_library` over the listed PDF files.
Returns the updated index, the produced log lines, and the list of
files for which `analyze_structure` was invoked. -/
def scanGo (hashOf : String → String) (pdfOf : String → List String)
    (analyze : String → String → AnalyzeResult) :
    List String → List (String × IndexEntry) →
    List (String × IndexEntry) × List String × List String
  | [], index => (index, [], [])
  | filename :: rest, index =>
    if needsIndexing hashOf index filename then
      match analyze (extract_text_from_pdf (pdfOf filename) 1 (some 15)) filename with
      | AnalyzeResult.err msg =>
        ((scanGo hashOf pdfOf analyze rest index).1,
         indexingLog filename :: errorIndexLog filename msg ::
           (scanGo hashOf pdfOf analyze rest index).2.1,
         filename :: (scanGo hashOf pdfOf analyze rest index).2.2)
      | AnalyzeResult.ok subject chapters =>
        ((scanGo hashOf pdfOf analyze rest (setEntry index filename
            { hash := hashOf filename,
              subject := some (subject.getD "Unknown"),
              chapters := chapters.getD [],
              path := "library/" ++ filename })).1,
         indexingLog filename ::
           successIndexLog filename (chapters.getD []).length ::
           (scanGo hashOf pdfOf analyze rest (setEntry index filename
              { hash := hashOf filename,
                subject := some (subject.getD "Unknown"),
                chapters := chapters.getD [],
                path := "library/" ++ filename })).2.1,
         filename :: (scanGo hashOf pdfOf analyze rest (setEntry index filename
            { hash := hashOf filename,
              subject := some (subject.getD "Unknown"),
              chapters := chapters.getD [],
              path := "library/" ++ filename })).2.2)
    else scanGo hashOf pdfOf analyze rest index

/-- Filesystem as seen by `scan_library`. -/
structure FileSys where
  dirExists : Bool
  listing : List String
  hashOf : String → String

/-- The in-memory index (`self.index["files"]`) and the persisted index
file, as association lists in dict insertion order. -/
structure ScanState where
  index : List (String × IndexEntry)
  persisted : List (String × IndexEntry)

/-- The PDF files of the directory listing. -/
def scanFiles (fs : FileSys) : List String := fs.listing.filter isPdf

/-- The indexed filenames no longer present on disk. -/
def removedNames (fs : FileSys) (index : List (String × IndexEntry)) : List String :=
  (index.map Prod.fst).filter (fun n1 => !((scanFiles fs).contains n1))

/-- The index after the removal phase of `scan_library`. -/
def keptIndex (fs : FileSys) (index : List (String × IndexEntry)) :
    List (String × IndexEntry) :=
  index.filter (fun p => (scanFiles fs).contains p.1)

/-- The result of the per-file loop on the kept index. -/
def scanResult (fs : FileSys) (pdfOf : String → List String)
    (analyze : String → String → AnalyzeResult)
    (index : List (String × IndexEntry)) :
    List (String × IndexEntry) × List String × List String :=
  scanGo fs.hashOf pdfOf analyze (scanFiles fs) (keptIndex fs index)

/-- Embeds `Librarian.scan_library`.  Returns the new state (the final
`_save_index()` makes the persisted index equal the in-memory one on
the normal path; the directory-creation path returns before any index
access), the log lines, and the files submitted to structure
inference. -/
def scan_library (fs : FileSys) (pdfOf : String → List String)
    (analyze : String → String → AnalyzeResult) (st : ScanState) :
    ScanState × List String × List String :=
  if fs.dirExists = false then (st, [createdLog], [])
  else
    ({ index := (scanResult fs pdfOf analyze st.index).1,
       persisted := (scanResult fs pdfOf analyze st.index).1 },
     (removedNames fs st.index).map removedLog ++
       (scanResult fs pdfOf analyze st.index).2.1,
     (scanResult fs pdfOf analyze st.index).2.2)

/-- Unfolding of the loop at an empty file list. -/
theorem scanGo_nil (hashOf : String → String) (pdfOf : String → List String)
    (analyze : String → String → AnalyzeResult)
    (index : List (String × IndexEntry)) :
    scanGo hashOf pdfOf analyze [] index = (index, [], []) := rfl

/-- Unfolding of the loop at a nonempty file list. -/
theorem scanGo_cons (hashOf : String → String) (pdfOf : String → List String)
    (analyze : String → String → AnalyzeResult) (filename : String)
    (rest : List String) (index : List (String × IndexEntry)) :
    scanGo hashOf pdfOf analyze (filename :: rest) index =
      (if needsIndexing hashOf index filename then
        match analyze (extract_text_from_pdf (pdfOf filename) 1 (some 15)) filename with
        | AnalyzeResult.err msg =>
          ((scanGo hashOf pdfOf analyze rest index).1,
           indexingLog filename :: errorIndexLog filename msg ::
             (scanGo hashOf pdfOf analyze rest index).2.1,
           filename :: (scanGo hashOf pdfOf analyze rest index).2.2)
        | AnalyzeResult.ok subject chapters =>
          ((scanGo hashOf pdfOf analyze rest (setEntry index filename
              { hash := hashOf filename,
                subject := some (subject.getD "Unknown"),
                chapters := chapters.getD [],
                path := "library/" ++ filename })).1,
           indexingLog filename ::
             successIndexLog filename (chapters.getD []).length ::
             (scanGo hashOf pdfOf analyze rest (setEntry index filename
                { hash := hashOf filename,
                  subject := some (subject.getD "Unknown"),
                  chapters := chapters.getD [],
                  path := "library/" ++ filename })).2.1,
           filename :: (scanGo hashOf pdfOf analyze rest (setEntry index filename
              { hash := hashOf filename,
                subject := some (subject.getD "Unknown"),
                chapters := chapters.getD [],
                path := "library/" ++ filename })).2.2)
      else scanGo hashOf pdfOf analyze rest index) := rfl

/-- Filtering by a key predicate commutes with lookup. -/
theorem lookupKey_filter {β : Type} (f : String → Bool) (k : String) :
    ∀ l : List (String × β),
      lookupKey k (l.filter (fun p => f p.1)) =
        if f k = true then lookupKey k l else none := by
  intro l
  induction l with
  | nil => by_cases h : f k = true <;> simp [lookupKey, h]
  | cons p rest ih =>
    obtain ⟨a, b⟩ := p
    rw [List.filter_cons]
    by_cases hak : a = k
    · subst hak
      cases hf : f a with
      | true => simp [lookupKey, hf]
      | false => simp [lookupKey, ih, hf]
    · cases hf : f a with
      | true => simp [lookupKey, hak, ih]
      | false => simp [lookupKey, hak, ih]

/-- Lookup after an in-place value update at key `k1`. -/
theorem lookupKey_mapUpdate {β : Type} (k k1 : String) (f : β → β) :
    ∀ l : List (String × β),
      lookupKey k (l.map (fun p => if p.1 = k1 then (p.1, f p.2) else p)) =
        if k = k1 then (lookupKey k l).map f else lookupKey k l := by
  intro l
  induction l with
  | nil => by_cases h : k = k1 <;> simp [lookupKey, h]
  | cons p rest ih =>
    obtain ⟨a, b⟩ := p
    rw [List.map_cons]
    by_cases ha1 : a = k1
    · subst ha1
      by_cases hak : a = k
      · subst hak
        simp [lookupKey]
      · have hk : ¬ k = a := fun h => hak h.symm
        simp [lookupKey, hak, hk, ih]
    · by_cases hak : a = k
      · subst hak
        simp [lookupKey, ha1, ih]
      · simp [lookupKey, ha1, hak, ih]

/-- Lookup distributes over append. -/
theorem lookupKey_append {β : Type} (k : String) :
    ∀ (l1 l2 : List (String × β)),
      lookupKey k (l1 ++ l2) =
        (match lookupKey k l1 with
         | some v => some v
         | none => lookupKey k l2) := by
  intro l1 l2
  induction l1 with
  | nil => simp [lookupKey]
  | cons p rest ih =>
    obtain ⟨a, b⟩ := p
    by_cases hak : a = k
    · simp [lookupKey, hak]
    · simp [lookupKey, hak, ih]

/-- The key list contains `k` exactly when the lookup finds something. -/
theorem keysContains_eq_isSome {β : Type} (k : String) :
    ∀ l : List (String × β),
      ((l.map Prod.fst).contains k) = (lookupKey k l).isSome := by
  intro l
  induction l with
  | nil => rfl
  | cons p rest ih =>
    obtain ⟨a, b⟩ := p
    rw [List.map_cons, List.contains_cons, ih]
    by_cases hak : a = k
    · subst hak
      simp [lookupKey]
    · have hka : ¬ k = a := fun h => hak h.symm
      simp [lookupKey, hak, hka]

/-- Updating one key leaves lookups of other keys unchanged. -/
theorem lookupKey_setEntry_ne {k k1 : String} (hne : k ≠ k1) (v : IndexEntry)
    (index : List (String × IndexEntry)) :
    lookupKey k (setEntry index k1 v) = lookupKey k index := by
  rw [setEntry]
  by_cases hc : ((index.map Prod.fst).contains k1) = true
  · rw [if_pos hc, lookupKey_mapUpdate k k1 (fun _ => v) index, if_neg hne]
  · rw [if_neg hc, lookupKey_append]
    cases hl : lookupKey k index with
    | some w => rfl
    | none =>
      have hne1 : ¬ k1 = k := fun h => hne h.symm
      simp [lookupKey, hne1]

/-- Membership gives a positive `contains` test. -/
theorem contains_of_mem (k : String) :
    ∀ l : List String, k ∈ l → l.contains k = true := by
  intro l
  induction l with
  | nil => intro h; simp at h
  | cons a rest ih =>
    intro h
    rw [List.contains_cons, Bool.or_eq_true]
    rcases List.mem_cons.mp h with h | h
    · exact Or.inl (by simp [h])
    · exact Or.inr (ih h)

/-- A positive `contains` test gives membership. -/
theorem mem_of_contains (k : String) :
    ∀ l : List String, l.contains k = true → k ∈ l := by
  intro l
  induction l with
  | nil => intro h; simp [List.contains] at h
  | cons a rest ih =>
    intro h
    rw [List.contains_cons, Bool.or_eq_true] at h
    rcases h with h | h
    · exact List.mem_cons.mpr (Or.inl (by simpa using h))
    · exact List.mem_cons.mpr (Or.inr (ih h))

/-- A file whose stored hash matches its current hash is skipped by the
loop: structure inference is not invoked for it and its entry survives
unchanged. -/
theorem scanGo_skip (hashOf : String → String) (pdfOf : String → List String)
    (analyze : String → String → AnalyzeResult) (filename : String)
    (entry : IndexEntry) (hhash : entry.hash = hashOf filename) :
    ∀ (files : List String) (index : List (String × IndexEntry)),
      lookupKey filename index = some entry →
      lookupKey filename (scanGo hashOf pdfOf analyze files index).1 = some entry ∧
      ¬ filename ∈ (scanGo hashOf pdfOf analyze files index).2.2 := by
  intro files
  induction files with
  | nil => intro index h; exact ⟨h, by simp [scanGo_nil]⟩
  | cons f rest ih =>
    intro index h
    rw [scanGo_cons]
    by_cases hf : f = filename
    · subst hf
      have hni : ¬ needsIndexing hashOf index f = true := by
        rw [needsIndexing, h]
        simp [hhash]
      rw [if_neg hni]
      exact ih index h
    · by_cases hni : needsIndexing hashOf index f = true
      · rw [if_pos hni]
        cases han : analyze (extract_text_from_pdf (pdfOf f) 1 (some 15)) f with
        | err msg =>
          dsimp only
          have hr := ih index h
          exact ⟨hr.1, by
            intro hmem
            rcases List.mem_cons.mp hmem with h1 | h1
            · exact hf h1.symm
            · exact hr.2 h1⟩
        | ok subject chapters =>
          dsimp only
          have hlook : lookupKey filename (setEntry index f
              { hash := hashOf f, subject := some (subject.getD "Unknown"),
                chapters := chapters.getD [], path := "library/" ++ f }) =
              some entry := by
            rw [lookupKey_setEntry_ne (fun h1 => hf h1.symm)]
            exact h
          have hr := ih _ hlook
          exact ⟨hr.1, by
            intro hmem
            rcases List.mem_cons.mp hmem with h1 | h1
            · exact hf h1.symm
            · exact hr.2 h1⟩
      · rw [if_neg hni]
        exact ih index h

/-- A listed file whose entry is absent or stale is submitted to
structure inference by the loop. -/
theorem scanGo_stale (hashOf : String → String) (pdfOf : String → List String)
    (analyze : String → String → AnalyzeResult) (filename : String) :
    ∀ (files : List String) (index : List (String × IndexEntry)),
      filename ∈ files →
      (∀ e, lookupKey filename index = some e → e.hash ≠ hashOf filename) →
      filename ∈ (scanGo hashOf pdfOf analyze files index).2.2 := by
  intro files
  induction files with
  | nil => intro index hmem _; simp at hmem
  | cons f rest ih =>
    intro index hmem hstale
    rw [scanGo_cons]
    by_cases hf : f = filename
    · subst hf
      have hni : needsIndexing hashOf index f = true := by
        rw [needsIndexing]
        cases hl : lookupKey f index with
        | none => rfl
        | some e => simpa using hstale e hl
      rw [if_pos hni]
      cases han : analyze (extract_text_from_pdf (pdfOf f) 1 (some 15)) f with
      | err msg => exact List.mem_cons_self _ _
      | ok subject chapters => exact List.mem_cons_self _ _
    · have hmem1 : filename ∈ rest :=
        (List.mem_cons.mp hmem).resolve_left (fun h1 => hf h1.symm)
      by_cases hni : needsIndexing hashOf index f = true
      · rw [if_pos hni]
        cases han : analyze (extract_text_from_pdf (pdfOf f) 1 (some 15)) f with
        | err msg =>
          exact List.mem_cons_of_mem _ (ih index hmem1 hstale)
        | ok subject chapters =>
          refine List.mem_cons_of_mem _ (ih _ hmem1 ?_)
          intro e he
          rw [lookupKey_setEntry_ne (fun h1 => hf h1.symm)] at he
          exact hstale e he
      · rw [if_neg hni]
        exact ih index hmem1 hstale

/-- When structure inference for a file always fails, the loop logs the
failure (if the file is listed and due for indexing) and its lookup is
untouched by the whole loop. -/
theorem scanGo_err (hashOf : String → String) (pdfOf : String → List String)
    (analyze : String → String → AnalyzeResult) (filename msg : String)
    (han : analyze (extract_text_from_pdf (pdfOf filename) 1 (some 15)) filename =
      AnalyzeResult.err msg) :
    ∀ (files : List String) (index : List (String × IndexEntry)),
      lookupKey filename (scanGo hashOf pdfOf analyze files index).1 =
        lookupKey filename index ∧
      (filename ∈ files →
        (∀ e, lookupKey filename index = some e → e.hash ≠ hashOf filename) →
        errorIndexLog filename msg ∈ (scanGo hashOf pdfOf analyze files index).2.1) := by
  intro files
  induction files with
  | nil => intro index; exact ⟨rfl, fun hmem _ => by simp at hmem⟩
  | cons f rest ih =>
    intro index
    rw [scanGo_cons]
    by_cases hf : f = filename
    · subst hf
      by_cases hni : needsIndexing hashOf index f = true
      · rw [if_pos hni, han]
        dsimp only
        exact ⟨(ih index).1,
          fun _ _ => List.mem_cons_of_mem _ (List.mem_cons_self _ _)⟩
      · rw [if_neg hni]
        refine ⟨(ih index).1, fun _ hstale => ?_⟩
        exfalso
        rw [needsIndexing] at hni
        cases hl : lookupKey f index with
        | none => rw [hl] at hni; exact hni rfl
        | some e =>
          rw [hl] at hni
          exact hstale e hl (by simpa using hni)
    · by_cases hni : needsIndexing hashOf index f = true
      · rw [if_pos hni]
        cases han2 : analyze (extract_text_from_pdf (pdfOf f) 1 (some 15)) f with
        | err m2 =>
          dsimp only
          refine ⟨(ih index).1, fun hmem hstale => ?_⟩
          have hmem1 : filename ∈ rest :=
            (List.mem_cons.mp hmem).resolve_left (fun h1 => hf h1.symm)
          exact List.mem_cons_of_mem _
            (List.mem_cons_of_mem _ ((ih index).2 hmem1 hstale))
        | ok subject chapters =>
          dsimp only
          have hset := lookupKey_setEntry_ne (fun h1 : filename = f => hf h1.symm)
            { hash := hashOf f, subject := some (subject.getD "Unknown"),
              chapters := chapters.getD [], path := "library/" ++ f } index
          refine ⟨?_, fun hmem hstale => ?_⟩
          · rw [(ih _).1, hset]
          · have hmem1 : filename ∈ rest :=
              (List.mem_cons.mp hmem).resolve_left (fun h1 => hf h1.symm)
            refine List.mem_cons_of_mem _ (List.mem_cons_of_mem _
              ((ih _).2 hmem1 ?_))
            intro e he
            rw [hset] at he
            exact hstale e he
      · rw [if_neg hni]
        refine ⟨(ih index).1, fun hmem hstale => (ih index).2
          ((List.mem_cons.mp hmem).resolve_left (fun h1 => hf h1.symm)) hstale⟩

/-- C5: for every listed PDF file whose index entry exists and whose
stored hash equals the current content hash, `scan_library` does not
invoke structure inference for that file and leaves its index entry
unchanged; and a listed PDF file whose entry is absent or whose stored
hash differs is submitted to structure inference. -/
theorem scan_library_hash_idempotent :
    (∀ (fs : FileSys) (pdfOf : String → List String)
        (analyze : String → String → AnalyzeResult) (st : ScanState)
        (filename : String) (entry : IndexEntry),
      fs.dirExists = true →
      (scanFiles fs).contains filename = true →
      lookupKey filename st.index = some entry →
      entry.hash = fs.hashOf filename →
      ¬ filename ∈ (scan_library fs pdfOf analyze st).2.2 ∧
      lookupKey filename (scan_library fs pdfOf analyze st).1.index = some entry) ∧
    (∀ (fs : FileSys) (pdfOf : String → List String)
        (analyze : String → String → AnalyzeResult) (st : ScanState)
        (filename : String),
      fs.dirExists = true →
      filename ∈ scanFiles fs →
      (∀ e, lookupKey filename st.index = some e → e.hash ≠ fs.hashOf filename) →
      filename ∈ (scan_library fs pdfOf analyze st).2.2) := by
  constructor
  · intro fs pdfOf analyze st filename entry hdir hcont hlook hhash
    simp only [scan_library]
    rw [if_neg (by simp [hdir])]
    dsimp only
    simp only [scanResult]
    have hkept : lookupKey filename (keptIndex fs st.index) = some entry := by
      rw [keptIndex,
        lookupKey_filter (fun s => (scanFiles fs).contains s) filename st.index,
        if_pos hcont, hlook]
    have h1 := scanGo_skip fs.hashOf pdfOf analyze filename entry hhash
      (scanFiles fs) (keptIndex fs st.index) hkept
    exact ⟨h1.2, h1.1⟩
  · intro fs pdfOf analyze st filename hdir hmem hstale
    simp only [scan_library]
    rw [if_neg (by simp [hdir])]
    dsimp only
    simp only [scanResult]
    apply scanGo_stale fs.hashOf pdfOf analyze filename (scanFiles fs)
      (keptIndex fs st.index) hmem
    intro e he
    rw [keptIndex,
      lookupKey_filter (fun s => (scanFiles fs).contains s) filename st.index,
      if_pos (contains_of_mem filename (scanFiles fs) hmem)] at he
    exact hstale e he

/-- A sample index entry used by the concrete scan witnesses. -/
def sampleEntry : IndexEntry :=
  { hash := "h1", subject := some "Indian Polity",
    chapters := [{ index := 1, title := "The Constitution", topics := [],
                   page_start := some 1, page_end := some 12 }],
    path := "library/a.pdf" }

/-- A sample one-file filesystem whose file hashes to `h`. -/
def sampleFs (h : String) : FileSys :=
  { dirExists := true, listing := ["a.pdf"], hashOf := fun _ => h }

/-- A sample state whose index holds `sampleEntry` for `a.pdf`. -/
def sampleState : ScanState :=
  { index := [("a.pdf", sampleEntry)], persisted := [("a.pdf", sampleEntry)] }

/-- A structure-inference oracle that always fails. -/
def offlineAnalyze : String → String → AnalyzeResult :=
  fun _ _ => AnalyzeResult.err "offline"

/-- A one-page PDF oracle. -/
def samplePdf : String → List String := fun _ => ["T"]

/-- Witness for C5: with the stored hash matching, the file is not
re-analyzed and its entry survives; with a different current hash, the
file is re-analyzed. -/
theorem scan_library_hash_idempotent_witness :
    (¬ "a.pdf" ∈ (scan_library (sampleFs "h1") samplePdf offlineAnalyze sampleState).2.2 ∧
      lookupKey "a.pdf"
        (scan_library (sampleFs "h1") samplePdf offlineAnalyze sampleState).1.index =
        some sampleEntry) ∧
    "a.pdf" ∈ (scan_library (sampleFs "h2") samplePdf offlineAnalyze sampleState).2.2 := by
  constructor
  · exact scan_library_hash_idempotent.1 (sampleFs "h1") samplePdf offlineAnalyze
      sampleState "a.pdf" sampleEntry rfl (by decide) rfl rfl
  · refine scan_library_hash_idempotent.2 (sampleFs "h2") samplePdf offlineAnalyze
      sampleState "a.pdf" rfl (by decide) ?_
    intro e he
    simp [sampleState, lookupKey] at he
    subst he
    decide

/-- C7: when structure inference fails for a listed file that is due
for (re)indexing, `scan_library` logs the failure and the lookup of
that file in both the resulting in-memory index and the persisted index
is exactly what it was before the scan — the prior entry (hash,
subject, chapters, path) is untouched. -/
theorem scan_library_err_untouched (fs : FileSys) (pdfOf : String → List String)
    (analyze : String → String → AnalyzeResult) (st : ScanState)
    (filename msg : String)
    (hdir : fs.dirExists = true)
    (hcont : (scanFiles fs).contains filename = true)
    (han : analyze (extract_text_from_pdf (pdfOf filename) 1 (some 15)) filename =
      AnalyzeResult.err msg)
    (hstale : ∀ e, lookupKey filename st.index = some e →
      e.hash ≠ fs.hashOf filename) :
    lookupKey filename (scan_library fs pdfOf analyze st).1.index =
      lookupKey filename st.index ∧
    lookupKey filename (scan_library fs pdfOf analyze st).1.persisted =
      lookupKey filename st.index ∧
    errorIndexLog filename msg ∈ (scan_library fs pdfOf analyze st).2.1 := by
  simp only [scan_library]
  rw [if_neg (by simp [hdir])]
  dsimp only
  simp only [scanResult]
  have hkept : lookupKey filename (keptIndex fs st.index) =
      lookupKey filename st.index := by
    rw [keptIndex,
      lookupKey_filter (fun s => (scanFiles fs).contains s) filename st.index,
      if_pos hcont]
  have hstale1 : ∀ e, lookupKey filename (keptIndex fs st.index) = some e →
      e.hash ≠ fs.hashOf filename := by
    intro e he
    rw [hkept] at he
    exact hstale e he
  have h1 := scanGo_err fs.hashOf pdfOf analyze filename msg han
    (scanFiles fs) (keptIndex fs st.index)
  refine ⟨?_, ?_, ?_⟩
  · rw [h1.1, hkept]
  · rw [h1.1, hkept]
  · exact List.mem_append_right _
      (h1.2 (mem_of_contains filename (scanFiles fs) hcont) hstale1)

/-- Witness for C7: the file is stale (stored hash `h1`, current `h2`),
inference fails, the failure is logged and the entry is untouched. -/
theorem scan_library_err_untouched_witness :
    lookupKey "a.pdf"
        (scan_library (sampleFs "h2") samplePdf offlineAnalyze sampleState).1.index =
      lookupKey "a.pdf" sampleState.index ∧
    lookupKey "a.pdf"
        (scan_library (sampleFs "h2") samplePdf offlineAnalyze sampleState).1.persisted =
      lookupKey "a.pdf" sampleState.index ∧
    errorIndexLog "a.pdf" "offline" ∈
      (scan_library (sampleFs "h2") samplePdf offlineAnalyze sampleState).2.1 := by
  refine scan_library_err_untouched (sampleFs "h2") samplePdf offlineAnalyze
    sampleState "a.pdf" "offline" rfl (by decide) rfl ?_
  intro e he
  simp [sampleState, lookupKey] at he
  subst he
  decide

/-- C9: when the watched directory does not exist, `scan_library`
creates it (an effect on the directory tree only) and returns with the
single log line `"Created library directory."`, the empty analyzed
list, and the state — both the in-memory index and the persisted index
file — exactly as it was: in particular stale entries are not removed
on that call. -/
theorem scan_library_no_dir (fs : FileSys) (pdfOf : String → List String)
    (analyze : String → String → AnalyzeResult) (st : ScanState)
    (h : fs.dirExists = false) :
    scan_library fs pdfOf analyze st = (st, ["Created library directory."], []) := by
  simp only [scan_library]
  rw [if_pos h]
  rfl

/-- Witness for C9 on a concrete missing directory. -/
theorem scan_library_no_dir_witness :
    scan_library { dirExists := false, listing := [], hashOf := fun _ => "" }
      samplePdf offlineAnalyze sampleState =
      (sampleState, ["Created library directory."], []) :=
  scan_library_no_dir _ samplePdf offlineAnalyze sampleState rfl

/-! ## Library structure projection (src/librarian.py, Librarian.get_library_structure) -/

/-- One file record in the projected structure. -/
structure FileInfo where
  filename : String
  filepath : String
  chapters : List Chapter
deriving DecidableEq

/-- Appending a file record to its subject group
(`structure[subj].append(...)`, creating the group if needed). -/
def addToGroup (acc : List (String × List FileInfo)) (subj : String)
    (info : FileInfo) : List (String × List FileInfo) :=
  if (acc.map Prod.fst).contains subj then
    acc.map (fun p => if p.1 = subj then (p.1, p.2 ++ [info]) else p)
  else acc ++ [(subj, [info])]

/-- Embeds `Librarian.get_library_structure`: a pure projection of the
index, grouping file records under `data.get("subject", "Uncategorized")`
in iteration order. -/
def get_library_structure (index : List (String × IndexEntry)) :
    List (String × List FileInfo) :=
  index.foldl
    (fun acc p =>
      addToGroup acc (p.2.subject.getD "Uncategorized")
        { filename := p.1, filepath := p.2.path, chapters := p.2.chapters })
    []

/-- Adding a record to a group makes it a member of that group. -/
theorem addToGroup_self (acc : List (String × List FileInfo)) (subj : String)
    (info : FileInfo) :
    ∃ l, lookupKey subj (addToGroup acc subj info) = some l ∧ info ∈ l := by
  rw [addToGroup]
  by_cases hc : ((acc.map Prod.fst).contains subj) = true
  · rw [if_pos hc,
      lookupKey_mapUpdate subj subj (fun l => l ++ [info]) acc, if_pos rfl]
    have hsome : (lookupKey subj acc).isSome := by
      rw [← keysContains_eq_isSome]
      exact hc
    obtain ⟨l, hl⟩ := Option.isSome_iff_exists.mp hsome
    rw [hl]
    exact ⟨l ++ [info], rfl, by simp⟩
  · rw [if_neg hc, lookupKey_append]
    have hnone : lookupKey subj acc = none := by
      have h1 := keysContains_eq_isSome subj acc
      rw [Bool.not_eq_true] at hc
      rw [hc] at h1
      exact Option.not_isSome_iff_eq_none.mp (by rw [← h1]; simp)
    rw [hnone]
    exact ⟨[info], by simp [lookupKey], by simp⟩

/-- Adding a record to any group preserves memberships of records
already in a group. -/
theorem addToGroup_preserve (acc : List (String × List FileInfo))
    (subj s : String) (info v : FileInfo) (l : List FileInfo)
    (hl : lookupKey s acc = some l) (hv : v ∈ l) :
    ∃ l1, lookupKey s (addToGroup acc subj info) = some l1 ∧ v ∈ l1 := by
  rw [addToGroup]
  by_cases hc : ((acc.map Prod.fst).contains subj) = true
  · rw [if_pos hc, lookupKey_mapUpdate s subj (fun l2 => l2 ++ [info]) acc]
    by_cases hs : s = subj
    · rw [if_pos hs, hl]
      exact ⟨l ++ [info], rfl, by simp [hv]⟩
    · rw [if_neg hs]
      exact ⟨l, hl, hv⟩
  · rw [if_neg hc, lookupKey_append, hl]
    exact ⟨l, rfl, hv⟩

/-- Memberships of grouped records survive the rest of the fold. -/
theorem foldl_addToGroup_preserve (s : String) (v : FileInfo) :
    ∀ (l : List (String × IndexEntry)) (acc : List (String × List FileInfo)),
      (∃ l1, lookupKey s acc = some l1 ∧ v ∈ l1) →
      ∃ l1, lookupKey s
          (l.foldl (fun acc1 p =>
            addToGroup acc1 (p.2.subject.getD "Uncategorized")
              { filename := p.1, filepath := p.2.path, chapters := p.2.chapters })
            acc) = some l1 ∧ v ∈ l1 := by
  intro l
  induction l with
  | nil => intro acc h; exact h
  | cons p rest ih =>
    intro acc h
    obtain ⟨l1, hl1, hv1⟩ := h
    rw [List.foldl_cons]
    exact ih _ (addToGroup_preserve acc (p.2.subject.getD "Uncategorized") s
      { filename := p.1, filepath := p.2.path, chapters := p.2.chapters }
      v l1 hl1 hv1)

/-- C8: `get_library_structure` is a pure projection of the index: every
index entry `(filename, e)` appears as the record
`{filename, filepath := e.path, chapters := e.chapters}` in the group
labelled `e.subject.getD "Uncategorized"`; in particular every file
whose entry has no subject is grouped under the sentinel label
`"Uncategorized"`. -/
theorem get_library_structure_grouping :
    (∀ (index : List (String × IndexEntry)) (filename : String) (e : IndexEntry),
      (filename, e) ∈ index →
      ∃ l, lookupKey (e.subject.getD "Uncategorized")
          (get_library_structure index) = some l ∧
        ({ filename := filename, filepath := e.path,
           chapters := e.chapters } : FileInfo) ∈ l) ∧
    (∀ (index : List (String × IndexEntry)) (filename : String) (e : IndexEntry),
      (filename, e) ∈ index → e.subject = none →
      ∃ l, lookupKey "Uncategorized" (get_library_structure index) = some l ∧
        ({ filename := filename, filepath := e.path,
           chapters := e.chapters } : FileInfo) ∈ l) := by
  have hmain : ∀ (index : List (String × IndexEntry)) (filename : String)
      (e : IndexEntry), (filename, e) ∈ index →
      ∃ l, lookupKey (e.subject.getD "Uncategorized")
          (get_library_structure index) = some l ∧
        ({ filename := filename, filepath := e.path,
           chapters := e.chapters } : FileInfo) ∈ l := by
    intro index
    have hgen : ∀ (l : List (String × IndexEntry))
        (acc : List (String × List FileInfo)) (filename : String) (e : IndexEntry),
        (filename, e) ∈ l →
        ∃ l1, lookupKey (e.subject.getD "Uncategorized")
            (l.foldl (fun acc1 p =>
              addToGroup acc1 (p.2.subject.getD "Uncategorized")
                { filename := p.1, filepath := p.2.path, chapters := p.2.chapters })
              acc) = some l1 ∧
          ({ filename := filename, filepath := e.path,
             chapters := e.chapters } : FileInfo) ∈ l1 := by
      intro l
      induction l with
      | nil => intro acc filename e h; simp at h
      | cons p rest ih =>
        intro acc filename e h
        rw [List.foldl_cons]
        rcases List.mem_cons.mp h with h | h
        · subst h
          exact foldl_addToGroup_preserve _ _ rest _ (addToGroup_self acc _ _)
        · exact ih _ filename e h
    intro filename e h
    exact hgen index [] filename e h
  refine ⟨hmain, ?_⟩
  intro index filename e h hnone
  have h1 := hmain index filename e h
  rw [hnone] at h1
  exact h1

/-- Witness for C8 on a concrete two-entry index, one entry of which has
no subject key and lands under "Uncategorized". -/
theorem get_library_structure_grouping_witness :
    ∃ l, lookupKey "Uncategorized"
        (get_library_structure
          [("a.pdf", sampleEntry),
           ("b.pdf", { hash := "h2", subject := none, chapters := [],
                       path := "library/b.pdf" })]) = some l ∧
      ({ filename := "b.pdf", filepath := "library/b.pdf",
         chapters := [] } : FileInfo) ∈ l :=
  get_library_structure_grouping.2
    [("a.pdf", sampleEntry),
     ("b.pdf", { hash := "h2", subject := none, chapters := [],
                 path := "library/b.pdf" })]
    "b.pdf" { hash := "h2", subject := none, chapters := [], path := "library/b.pdf" }
    (by simp) rfl

end UPSC
